import Mathlib

/-!
Shallow embedding of the spatial aggregation and hierarchical roll-up engine
of the rra-flooding repository, and proofs of the specified properties.

The embedding follows the source files:
  * src/rra_flooding/aggregate/pixel_hierarchy.py
      (aggregate_climate_to_hierarchy, hierarchy_main, post_process)
  * src/rra_flooding/aggregate/pixel_main.py
      (get_bbox, build_bounds_map, pixel_main)
  * src/rra_flooding/cama/adjust_daily_netcdf.py
      (standardize_flooding_fraction)

Pandas data frames are modelled as lists of record structures, numpy float
arrays as lists of `Option ℚ` (`none` is the NaN / no-data sentinel, `some q`
a finite sample), and machine floats as exact rationals; the NaN/Inf results
of a float division by zero are modelled explicitly by the `FVal` type.
-/

/-- Lexicographic order on (location_id, year_id) keys, the order used by the
pandas multi-column sorts in the source. -/
def keyLe (a b : ℤ × ℤ) : Prop :=
  a.1 < b.1 ∨ (a.1 = b.1 ∧ a.2 ≤ b.2)

instance : DecidableRel keyLe :=
  fun a b => inferInstanceAs (Decidable (a.1 < b.1 ∨ (a.1 = b.1 ∧ a.2 ≤ b.2)))

theorem keyLe_refl (a : ℤ × ℤ) : keyLe a a := by
  unfold keyLe; omega

instance : IsTotal (ℤ × ℤ) keyLe :=
  ⟨by intro a b; unfold keyLe; omega⟩

instance : IsTrans (ℤ × ℤ) keyLe :=
  ⟨by intro a b c hab hbc; unfold keyLe at *; omega⟩

/-- Concatenation of the lists produced by `f` over a list, in order.  Used to
model nested generation loops and pandas `.loc` row selection. -/
def catMap (f : α → List β) : List α → List β
  | [] => []
  | a :: as => f a ++ catMap f as

@[simp] theorem catMap_nil (f : α → List β) : catMap f [] = [] := rfl

@[simp] theorem catMap_cons (f : α → List β) (a : α) (as : List α) :
    catMap f (a :: as) = f a ++ catMap f as := rfl

theorem mem_catMap {f : α → List β} {b : β} :
    ∀ {l : List α}, b ∈ catMap f l ↔ ∃ a ∈ l, b ∈ f a := by
  intro l
  induction l with
  | nil => simp
  | cons a as ih => simp [ih]

/-! ### Data model of the hierarchy roll-up (pixel_hierarchy.py) -/

/-- One row of the most-detailed climate data frame handled by
`aggregate_climate_to_hierarchy`: columns location_id, year_id,
weighted_climate, population. -/
structure DataRow where
  location_id : ℤ
  year_id : ℤ
  weighted_climate : ℚ
  population : ℚ
deriving DecidableEq

/-- One row of the hierarchy table: location_id, parent_id, level. -/
structure HierRow where
  location_id : ℤ
  parent_id : ℤ
  level : ℕ
deriving DecidableEq

/-- The index of the working results frame (`results.index` after
`set_index("location_id")`): the list of location ids of its rows. -/
def resIds (R : List DataRow) : List ℤ :=
  R.map DataRow.location_id

/-- The (child location_id, parent_id) pairs of the hierarchy rows at one
level: `hierarchy.loc[level_mask].set_index("location_id").parent_id`. -/
def parentMapAt (hier : List HierRow) (L : ℕ) : List (ℤ × ℤ) :=
  (hier.filter (fun r => decide (r.level = L))).map (fun r => (r.location_id, r.parent_id))

/-- Maximum hierarchy level, `hierarchy.level.max()`. -/
def maxLevel (hier : List HierRow) : ℕ :=
  hier.foldl (fun m r => max m r.level) 0

/-- The parent-map entries whose child is absent from the working results
(`parent_map.index.difference(results.index)` together with
`parent_map.loc[absent_parent_map]`). -/
def absentPairs (pm : List (ℤ × ℤ)) (R : List DataRow) : List (ℤ × ℤ) :=
  pm.filter (fun p => decide (p.1 ∉ resIds R))

/-- The unresolvable parents named by the data-integrity error: the distinct
parents of absent children that are themselves absent from the results
(`unique_parent_ids[~np.isin(unique_parent_ids, results.index)]`). -/
def missingParents (pm : List (ℤ × ℤ)) (R : List DataRow) : List ℤ :=
  (((absentPairs pm R).map Prod.snd).dedup).filter (fun q => decide (q ∉ resIds R))

/-- Embedding of `parent_map.loc[parent_map.index.isin(results.index)]`. -/
def presentPairs (pm : List (ℤ × ℤ)) (R : List DataRow) : List (ℤ × ℤ) :=
  pm.filter (fun p => decide (p.1 ∈ resIds R))

/-- The subset frame `results.loc[present_parent_map.index]` with the added
`parent_id` column: each present child's rows, tagged with its parent. -/
def subsetRows (R : List DataRow) (pm : List (ℤ × ℤ)) : List (DataRow × ℤ) :=
  catMap (fun p => (R.filter (fun r => decide (r.location_id = p.1))).map (fun r => (r, p.2)))
    (presentPairs pm R)

/-- Sum of the weighted_climate column over one (year_id, parent_id) group. -/
def groupWv (rows : List (DataRow × ℤ)) (y p : ℤ) : ℚ :=
  ((rows.filter (fun rp => decide (rp.1.year_id = y ∧ rp.2 = p))).map
    (fun rp => rp.1.weighted_climate)).sum

/-- Sum of the population column over one (year_id, parent_id) group. -/
def groupPop (rows : List (DataRow × ℤ)) (y p : ℤ) : ℚ :=
  ((rows.filter (fun rp => decide (rp.1.year_id = y ∧ rp.2 = p))).map
    (fun rp => rp.1.population)).sum

/-- The group keys of `subset.groupby(["year_id", "parent_id"])`: the distinct
(year_id, parent_id) pairs, sorted ascending as pandas groupby sorts them. -/
def levelKeys (R : List DataRow) (pm : List (ℤ × ℤ)) : List (ℤ × ℤ) :=
  List.insertionSort keyLe (((subsetRows R pm).map (fun rp => (rp.1.year_id, rp.2))).dedup)

/-- The parent-level records appended at one level: one row per
(year_id, parent_id) group holding the group sums, with the parent id as the
new location_id. -/
def levelRecords (R : List DataRow) (pm : List (ℤ × ℤ)) : List DataRow :=
  (levelKeys R pm).map (fun k =>
    { location_id := k.2
      year_id := k.1
      weighted_climate := groupWv (subsetRows R pm) k.1 k.2
      population := groupPop (subsetRows R pm) k.1 k.2 })

/-- One iteration of the level loop of `aggregate_climate_to_hierarchy`.
The error payload is the list of unresolvable location ids named in the
raised ValueError message
("Some parent locations are not in the results: ..."). -/
def levelStep (R : List DataRow) (pm : List (ℤ × ℤ)) :
    Except (List ℤ) (List DataRow) :=
  if missingParents pm R = [] then .ok (R ++ levelRecords R pm)
  else .error (missingParents pm R)

/-- The level loop, processing levels L, L-1, ..., 1 (the python loop is
`for level in reversed(range(1, hierarchy.level.max() + 1))`). -/
def rollupFrom (hier : List HierRow) : ℕ → List DataRow → Except (List ℤ) (List DataRow)
  | 0, R => .ok R
  | L + 1, R =>
    match levelStep R (parentMapAt hier (L + 1)) with
    | .error e => .error e
    | .ok R' => rollupFrom hier L R'

/-- Order on data rows used by the final
`sort_values(["location_id", "year_id"])` (a stable lexicographic sort). -/
def dRowLe (a b : DataRow) : Prop :=
  keyLe (a.location_id, a.year_id) (b.location_id, b.year_id)

instance : DecidableRel dRowLe :=
  fun _ _ => inferInstanceAs (Decidable (keyLe _ _))

instance : IsTotal DataRow dRowLe :=
  ⟨fun _ _ => IsTotal.total (r := keyLe) _ _⟩

instance : IsTrans DataRow dRowLe :=
  ⟨fun _ _ _ hab hbc => IsTrans.trans (r := keyLe) _ _ _ hab hbc⟩

/-- Embedding of `aggregate_climate_to_hierarchy` (pixel_hierarchy.py lines 45-104): start
from the most-detailed data, aggregate level by level appending parent
records, and return all levels sorted by (location_id, year_id); raise a
data-integrity error when a level's absent children have unresolvable
parents. -/
def aggregate_climate_to_hierarchy (data : List DataRow) (hier : List HierRow) :
    Except (List ℤ) (List DataRow) :=
  match rollupFrom hier (maxLevel hier) data with
  | .error e => .error e
  | .ok R => .ok (List.insertionSort dRowLe R)

/-- True when the roll-up succeeded and its output contains the given row. -/
def okHas (x : Except (List ℤ) (List DataRow)) (r : DataRow) : Bool :=
  match x with
  | .ok out => decide (r ∈ out)
  | .error _ => false

/-! ### Per-capita derivation (pixel_hierarchy.py, hierarchy_main) -/

/-- Value of a float computation that may be NaN or infinite.  Finite machine
floats are modelled by exact rationals; only the NaN/Inf classification of a
division is modelled exactly, which is all the per-capita property needs. -/
inductive FVal where
  | fin (q : ℚ)
  | nan
  | inf
  | ninf
deriving DecidableEq

/-- IEEE-754 / numpy division as used by the pandas expression
`agg_df.weighted_climate / agg_df.population`: a nonzero numerator over zero
gives a signed infinity, zero over zero gives NaN. -/
def fdiv (a b : ℚ) : FVal :=
  if b = 0 then
    if a = 0 then .nan else if 0 < a then .inf else .ninf
  else .fin (a / b)

/-- Whether a float value is finite (not NaN and not infinite). -/
def FVal.isFinite : FVal → Bool
  | .fin _ => true
  | _ => false

/-- The derived per-capita column of `hierarchy_main` (pixel_hierarchy.py
lines 209-210): `agg_df["value"] = agg_df.weighted_climate / agg_df.population`
with no guard on a zero population, then the (location_id, year_id, value)
projection. -/
def derive_values (rows : List DataRow) : List (ℤ × ℤ × FVal) :=
  rows.map (fun r => (r.location_id, r.year_id, fdiv r.weighted_climate r.population))

/-! ### Per-block aggregation (pixel_main.py, pixel_main) -/

/-- One row of the per-block result frame: (location_id, year_id, scenario,
measure, weighted_climate, population). -/
structure ResultRow where
  location_id : ℤ
  year_id : ℤ
  scenario : String
  measure : String
  weighted_climate : ℚ
  population : ℚ
deriving DecidableEq

/-- Embedding of `np.nansum`: sum of the non-missing values of an array; the sum of an
empty or all-missing selection is 0, never NaN. -/
def nansum (xs : List (Option ℚ)) : ℚ :=
  (xs.filterMap id).sum

/-- The pixels one location's mask selects from the weighted-climate and
population arrays for one year: `weighted_clim_arr[rows, cols][loc_mask]` and
`pop_arr[rows, cols][loc_mask]` as flat value lists (`none` is NaN). -/
structure LocCell where
  location_id : ℤ
  wvals : List (Option ℚ)
  pvals : List (Option ℚ)
deriving DecidableEq

/-- The data one (measure, scenario) combination contributes: whether the
model's climate file exists, and for each year the masked pixel values of
every location. -/
structure ScenarioData where
  measure : String
  scenario : String
  available : Bool
  years : List (ℤ × List LocCell)
deriving DecidableEq

/-- The record list built by the generation loops of `pixel_main`
(pixel_main.py lines 334-376), in generation order: for each
(measure, scenario) with an existing climate file, for each year, for each
location, one record summing the masked values with `np.nansum`. -/
def rawRecords (combos : List ScenarioData) : List ResultRow :=
  catMap (fun sd =>
    if sd.available then
      catMap (fun yc =>
        yc.2.map (fun c =>
          { location_id := c.location_id
            year_id := yc.1
            scenario := sd.scenario
            measure := sd.measure
            weighted_climate := nansum c.wvals
            population := nansum c.pvals }))
        sd.years
    else []) combos

/-- Sort key of the output frame. -/
def rowKey (r : ResultRow) : ℤ × ℤ :=
  (r.location_id, r.year_id)

/-- Order used by `results.sort_values(by=["location_id", "year_id"])`; a
multi-column pandas sort is a stable lexicographic sort (np.lexsort). -/
def rowLe (a b : ResultRow) : Prop :=
  keyLe (rowKey a) (rowKey b)

instance : DecidableRel rowLe :=
  fun _ _ => inferInstanceAs (Decidable (keyLe _ _))

instance : IsTotal ResultRow rowLe :=
  ⟨fun _ _ => IsTotal.total (r := keyLe) _ _⟩

instance : IsTrans ResultRow rowLe :=
  ⟨fun _ _ _ hab hbc => IsTrans.trans (r := keyLe) _ _ _ hab hbc⟩

/-- The per-block record set returned by `pixel_main` (pixel_main.py lines
378-388): the generated records, stably sorted by (location_id, year_id). -/
def pixel_results (combos : List ScenarioData) : List ResultRow :=
  List.insertionSort rowLe (rawRecords combos)

/-! ### Location windows (pixel_main.py, build_bounds_map) -/

/-- The inverse affine transform `~raster_template.transform` mapping CRS
coordinates to fractional pixel coordinates:
(x, y) maps to (a*x + b*y + c, d*x + e*y + f) = (column, row). -/
structure AffineInv where
  a : ℚ
  b : ℚ
  c : ℚ
  d : ℚ
  e : ℚ
  f : ℚ

/-- A polygon's bounds `shp.bounds` = (xmin, ymin, xmax, ymax). -/
structure ShapeBounds where
  xmin : ℚ
  ymin : ℚ
  xmax : ℚ
  ymax : ℚ

/-- Python `int()`: truncation of a real number toward zero. -/
def pyInt (q : ℚ) : ℤ :=
  q.num.tdiv q.den

/-- Embedding of `build_bounds_map` (pixel_main.py lines 189-227): map each location to a
(row slice, column slice) window of the raster template, the polygon's
pixel-space bounds expanded by a 10-pixel buffer and clamped to the template
dimensions.  A slice pair (lo, hi) selects indices lo ≤ i < hi. -/
def build_bounds_map (toPixel : AffineInv) (width height : ℕ)
    (shapeValues : List (ShapeBounds × ℤ)) :
    List (ℤ × ((ℤ × ℤ) × (ℤ × ℤ))) :=
  shapeValues.map (fun sv =>
    let shp := sv.1
    let pxmin := max 0 (pyInt (toPixel.a * shp.xmin + toPixel.b * shp.ymax + toPixel.c) - 10)
    let pymin := max 0 (pyInt (toPixel.d * shp.xmin + toPixel.e * shp.ymax + toPixel.f) - 10)
    let pxmax := min (width : ℤ) (pyInt (toPixel.a * shp.xmax + toPixel.b * shp.ymin + toPixel.c) + 10)
    let pymax := min (height : ℤ) (pyInt (toPixel.d * shp.xmax + toPixel.e * shp.ymin + toPixel.f) + 10)
    (sv.2, ((pymin, pymax), (pxmin, pxmax))))

/-! ### Bounding box and CRS check (pixel_main.py, get_bbox) -/

/-- An axis-aligned box in some CRS (`shapely.box`). -/
structure GeoBox where
  xmin : ℚ
  ymin : ℚ
  xmax : ℚ
  ymax : ℚ

/-- Area of an axis-aligned box. -/
def boxArea (b : GeoBox) : ℚ :=
  |(b.xmax - b.xmin) * (b.ymax - b.ymin)|

/-- Metadata of a raster array as used by `get_bbox`: its CRS tag and its
bounds, unpacked in the source as (xmin, xmax, ymin, ymax). -/
structure RasterMeta where
  crs : String
  xmin : ℚ
  xmax : ℚ
  ymin : ℚ
  ymax : ℚ

/-- The fixed table of maximum valid bounds per CRS
(pixel_main.py lines 90-92): (xmin, xmax, ymin, ymax). -/
def MAX_BOUNDS : List (String × (ℚ × ℚ × ℚ × ℚ)) :=
  [("ESRI:54034", (-2003750834 / 100, 2003750834 / 100, -636388533 / 100, 636388533 / 100))]

/-- Embedding of `np.clip(v, lo, hi)`. -/
def npClip (v lo hi : ℚ) : ℚ :=
  min (max v lo) hi

/-- Embedding of `get_bbox` (pixel_main.py lines 94-135).  Reprojection between CRSs is an
external library call, passed in as the function `toCrs from to box`.  An
unsupported CRS or an area change beyond the 1e-6 tolerance is a fatal
configuration error; otherwise the clipped, reprojected box is returned. -/
def get_bbox (toCrs : String → String → GeoBox → GeoBox) (raster : RasterMeta)
    (crs : Option String) : Except String GeoBox :=
  match MAX_BOUNDS.lookup raster.crs with
  | none => .error ("Unsupported CRS: " ++ raster.crs)
  | some clip =>
    let xmin := npClip raster.xmin clip.1 clip.2.1
    let xmax := npClip raster.xmax clip.1 clip.2.1
    let ymin := npClip raster.ymin clip.2.2.1 clip.2.2.2
    let ymax := npClip raster.ymax clip.2.2.1 clip.2.2.2
    let bbox : GeoBox := ⟨xmin, ymin, xmax, ymax⟩
    let outBbox := match crs with
      | some c => toCrs raster.crs c bbox
      | none => bbox
    let outCrs := match crs with
      | some c => c
      | none => raster.crs
    let checkBbox := toCrs outCrs raster.crs outBbox
    let areaChange := |boxArea bbox - boxArea checkBbox| / boxArea bbox
    if areaChange > 1 / 1000000 then .error ("Area change: " ++ toString areaChange)
    else .ok outBbox

/-! ### Per-pixel shift adjustment (adjust_daily_netcdf.py) -/

/-- The shift flavour of a "shifted" adjustment. -/
inductive ShiftType where
  | min
  | percentile
deriving DecidableEq

/-- Embedding of `np.min` over a nonempty value list. -/
def listMin (xs : List ℚ) : ℚ :=
  match xs with
  | [] => 0
  | a :: as => as.foldl Min.min a

/-- Embedding of `np.percentile(xs, q)` with the default linear interpolation: with the
values sorted ascending, the rank is q/100 * (n-1) and the result
interpolates linearly between the neighbouring order statistics. -/
def npPercentile (xs : List ℚ) (q : ℚ) : ℚ :=
  let s := List.insertionSort (· ≤ ·) xs
  match s with
  | [] => 0
  | _ :: _ =>
    let rank : ℚ := q / 100 * ((s.length : ℚ) - 1)
    let i : ℕ := (⌊rank⌋).toNat
    let g : ℚ := rank - (i : ℚ)
    let a := s.getD i 0
    let b := s.getD (i + 1) a
    a + g * (b - a)

/-- The shift value computed for one pixel from its non-missing values
(adjust_daily_netcdf.py lines 109-117): the minimum for shift_type "min", the
configured percentile for shift_type "percentile". -/
def shiftOf (st : ShiftType) (shift : ℚ) (valid : List ℚ) : ℚ :=
  match st with
  | .min => listMin valid
  | .percentile => npPercentile valid (shift * 100)

/-- The adjustment of one daily sample of one pixel, given the pixel's full
daily stack (adjust_daily_netcdf.py lines 105-126): if the stack has no
non-missing value the sample is left unchanged; otherwise a non-missing
sample v becomes v - s clamped at zero below, and a missing sample stays
missing (NaN - s is NaN, and NaN < 0 is false). -/
def adjustVal (st : ShiftType) (shift : ℚ) (stack : List (Option ℚ))
    (v : Option ℚ) : Option ℚ :=
  let valid := stack.filterMap id
  if valid = [] then v
  else v.map (fun x =>
    if x - shiftOf st shift valid < 0 then 0 else x - shiftOf st shift valid)

/-- The in-place update of one pixel's daily stack
(`variable_da_adjusted[:, y, x] = shifted_values` after the shift and clamp):
every sample adjusted against the stack's own statistics. -/
def adjustPixel (st : ShiftType) (shift : ℚ) (stack : List (Option ℚ)) :
    List (Option ℚ) :=
  stack.map (adjustVal st shift stack)

/-- List map that passes the element index to the function. -/
def mapIdxF (f : ℕ → α → β) : List α → List β
  | [] => []
  | a :: as => f 0 a :: mapIdxF (fun i => f (i + 1)) as

theorem get_mapIdxF (f : ℕ → α → β) :
    ∀ (l : List α) (n : ℕ), (mapIdxF f l).get? n = (l.get? n).map (f n) := by
  intro l
  induction l generalizing f with
  | nil => intro n; simp [mapIdxF]
  | cons a as ih =>
    intro n
    cases n with
    | zero => simp [mapIdxF]
    | succ m => simpa [mapIdxF] using ih (fun i => f (i + 1)) m

/-- The daily stack of one pixel, `variable_da[:, y, x]`: the (y, x) sample of
every daily plane of the (time, lat, lon) array. -/
def pixelStack (arr : List (List (List (Option ℚ)))) (y x : ℕ) : List (Option ℚ) :=
  arr.map (fun plane => (plane.getD y []).getD x none)

/-- The "shifted" branch of `standardize_flooding_fraction`
(adjust_daily_netcdf.py lines 92-126): the nested per-pixel loops over
(lat, lon), each adjusting the pixel's daily stack in place, expressed as the
array whose (t, y, x) sample is the adjusted sample. -/
def standardize_shifted (st : ShiftType) (shift : ℚ)
    (arr : List (List (List (Option ℚ)))) : List (List (List (Option ℚ))) :=
  arr.map (fun plane =>
    mapIdxF (fun y row => mapIdxF (fun x v => adjustVal st shift (pixelStack arr y x) v) row) plane)

/-! ### Output writes and permissions (pixel_main.py / pixel_hierarchy.py) -/

/-- One artifact written by the engine, and whether the source applies
`Path.chmod(0o775)` to it after the write. -/
structure WriteEvent where
  path : String
  chmod775 : Bool
deriving DecidableEq

/-- The fixed map from full aggregation hierarchies to their subset-view
hierarchies (pixel_hierarchy.py lines 37-43). -/
def HIERARCHY_MAP : List (String × List String) :=
  [("gbd_2021", ["gbd_2021", "fhs_2021"]), ("lsae_1209", ["lsae_1209"])]

/-- The write/chmod trace of `hierarchy_main` (pixel_hierarchy.py lines
237-262): per subset hierarchy, the results parquet is written and chmodded
to 0o775; when the population is saved (the save_population condition reduces
to scenario == "ssp245", since measure always equals summary_variable and the
only draw is "000"), population.parquet is written but its
`pop_path.chmod(0o775)` line is commented out in the source. -/
def hierarchy_writes (hierarchy scenario model variant summary_variable : String) :
    List WriteEvent :=
  catMap (fun sh =>
    [⟨sh ++ "/" ++ summary_variable ++ "_" ++ scenario ++ "_" ++ model ++ "_"
        ++ variant ++ ".parquet", true⟩]
    ++ (if scenario = "ssp245" then [⟨sh ++ "/population.parquet", false⟩] else []))
    ((HIERARCHY_MAP.lookup hierarchy).getD [])

/-- The write/chmod trace of `pixel_main` (pixel_main.py lines 389-399): the
per-block parquet is written and chmodded to 0o775. -/
def pixel_writes (hierarchy model block_key summary_variable : String) :
    List WriteEvent :=
  [⟨hierarchy ++ "/" ++ model ++ "/" ++ block_key ++ "/" ++ summary_variable
      ++ "/000.parquet", true⟩]

/-! ### Concrete inputs used by the spec's examples -/

/-- The hierarchy of the spec's roll-up example:
(10, parent 1, level 2), (20, parent 1, level 2), (1, parent 0, level 1). -/
def exHier : List HierRow :=
  [⟨10, 1, 2⟩, ⟨20, 1, 2⟩, ⟨1, 0, 1⟩]

/-- The detailed records of the spec's roll-up example, at year 2000:
(10, pop 4, wv 8), (20, pop 4, wv 4). -/
def exData : List DataRow :=
  [⟨10, 2000, 8, 4⟩, ⟨20, 2000, 4, 4⟩]

/-- A hierarchy whose level-2 child 7 references parent 99; neither 7 nor 99
occurs in the detailed data. -/
def exHierMissing : List HierRow :=
  [⟨7, 99, 2⟩, ⟨99, 5, 1⟩]

/-- Detailed data containing only location 8, so both the child 7 and its
parent 99 are absent from the working set. -/
def exDataMissing : List DataRow :=
  [⟨8, 2000, 1, 1⟩]

/-! ### Helper lemmas -/

theorem filter_catMap (q : β → Bool) (g : α → List β) :
    ∀ l : List α, (catMap g l).filter q = catMap (fun a => (g a).filter q) l := by
  intro l
  induction l with
  | nil => simp
  | cons a as ih => simp [List.filter_append, ih]

theorem sum_catMap (g : α → List ℚ) :
    ∀ l : List α, (catMap g l).sum = (l.map (fun a => (g a).sum)).sum := by
  intro l
  induction l with
  | nil => simp
  | cons a as ih => simp [ih]

theorem map_catMap (v : β → γ) (g : α → List β) :
    ∀ l : List α, (catMap g l).map v = catMap (fun a => (g a).map v) l := by
  intro l
  induction l with
  | nil => simp
  | cons a as ih => simp [ih]

theorem sum_map_ite (pred : α → Bool) (f : α → ℚ) :
    ∀ l : List α,
      (l.map (fun a => if pred a then f a else 0)).sum = ((l.filter pred).map f).sum := by
  intro l
  induction l with
  | nil => simp
  | cons a as ih =>
    by_cases h : pred a = true
    · simp [h, ih]
    · simp [h, ih, List.filter_cons, Bool.eq_false_iff.mpr h]

theorem nansum_of_all_none {xs : List (Option ℚ)} (h : ∀ x ∈ xs, x = none) :
    nansum xs = 0 := by
  unfold nansum
  rw [show List.filterMap id xs = [] from
    List.filterMap_eq_nil_iff.mpr (fun a ha => h a ha)]
  rfl

/-- Stability of one ordered insertion with respect to a key predicate: rows
skipped before the insertion point compare strictly below the inserted row's
key, so they cannot share its key. -/
theorem filter_key_orderedInsert (k : ℤ × ℤ) (a : ResultRow) :
    ∀ s : List ResultRow,
      (List.orderedInsert rowLe a s).filter (fun r => decide (rowKey r = k)) =
        if rowKey a = k then a :: s.filter (fun r => decide (rowKey r = k))
        else s.filter (fun r => decide (rowKey r = k)) := by
  intro s
  induction s with
  | nil =>
    by_cases h : rowKey a = k <;> simp [List.orderedInsert, List.filter_cons, h]
  | cons b s ih =>
    by_cases hab : rowLe a b
    · rw [List.orderedInsert_of_le _ _ hab]
      by_cases h : rowKey a = k <;> simp [List.filter_cons, h]
    · have hbk : rowKey a = k → rowKey b ≠ k := by
        intro hak hbk
        exact hab (by unfold rowLe; rw [hak, hbk]; exact keyLe_refl k)
      simp only [List.orderedInsert, if_neg hab]
      by_cases h : rowKey a = k
      · have hb := hbk h
        simp [List.filter_cons, hb, ih, h]
      · by_cases hb : rowKey b = k <;> simp [List.filter_cons, hb, ih, h]

/-- Stability of the whole insertion sort: rows holding any fixed
(location_id, year_id) key keep their original relative order. -/
theorem filter_key_insertionSort (k : ℤ × ℤ) :
    ∀ l : List ResultRow,
      (List.insertionSort rowLe l).filter (fun r => decide (rowKey r = k)) =
        l.filter (fun r => decide (rowKey r = k)) := by
  intro l
  induction l with
  | nil => rfl
  | cons a l ih =>
    simp only [List.insertionSort, filter_key_orderedInsert, ih]
    by_cases h : rowKey a = k <;> simp [List.filter_cons, h]

/-- Sum of the weighted_climate values carried by one child location at one
year in a working set. -/
def rowsWv (R : List DataRow) (c y : ℤ) : ℚ :=
  ((R.filter (fun r => decide (r.location_id = c ∧ r.year_id = y))).map
    DataRow.weighted_climate).sum

/-- Sum of the population values carried by one child location at one year in
a working set. -/
def rowsPop (R : List DataRow) (c y : ℤ) : ℚ :=
  ((R.filter (fun r => decide (r.location_id = c ∧ r.year_id = y))).map
    DataRow.population).sum

/-- Sum of weighted_climate over all immediate children of a parent in a
level's parent map, at one year. -/
def childrenWv (R : List DataRow) (pm : List (ℤ × ℤ)) (p y : ℤ) : ℚ :=
  ((pm.filter (fun q => decide (q.2 = p))).map (fun q => rowsWv R q.1 y)).sum

/-- Sum of population over all immediate children of a parent in a level's
parent map, at one year. -/
def childrenPop (R : List DataRow) (pm : List (ℤ × ℤ)) (p y : ℤ) : ℚ :=
  ((pm.filter (fun q => decide (q.2 = p))).map (fun q => rowsPop R q.1 y)).sum

theorem presentPairs_of_all_present {pm : List (ℤ × ℤ)} {R : List DataRow}
    (h : ∀ c ∈ pm.map Prod.fst, c ∈ resIds R) : presentPairs pm R = pm := by
  unfold presentPairs
  exact List.filter_eq_self.mpr (fun p hp => by
    simpa using h p.1 (List.mem_map_of_mem Prod.fst hp))

theorem groupWv_eq_childrenWv {pm : List (ℤ × ℤ)} {R : List DataRow}
    (h : ∀ c ∈ pm.map Prod.fst, c ∈ resIds R) (y p : ℤ) :
    groupWv (subsetRows R pm) y p = childrenWv R pm p y := by
  unfold groupWv subsetRows childrenWv
  rw [presentPairs_of_all_present h, filter_catMap, map_catMap, sum_catMap]
  have hmap : ∀ a ∈ pm,
      ((((R.filter (fun r => decide (r.location_id = a.1))).map (fun r => (r, a.2))).filter
          (fun rp => decide (rp.1.year_id = y ∧ rp.2 = p))).map
        (fun rp => rp.1.weighted_climate)).sum
      = if decide (a.2 = p) then rowsWv R a.1 y else 0 := by
    intro a _
    rw [List.filter_map, List.map_map]
    by_cases hp : a.2 = p
    · rw [if_pos (by simpa using hp)]
      unfold rowsWv
      rw [List.filter_filter]
      have hpred : ∀ r : DataRow,
          (((fun rp : DataRow × ℤ => decide (rp.1.year_id = y ∧ rp.2 = p)) ∘
              (fun r => (r, a.2))) r && decide (r.location_id = a.1))
          = decide (r.location_id = a.1 ∧ r.year_id = y) := by
        intro r
        simp [hp, and_comm, Bool.and_comm]
      rw [List.filter_congr (fun r _ => hpred r)]
      rfl
    · rw [if_neg (by simpa using hp)]
      have hnil : (R.filter (fun r => decide (r.location_id = a.1))).filter
          ((fun rp : DataRow × ℤ => decide (rp.1.year_id = y ∧ rp.2 = p)) ∘
            (fun r => (r, a.2))) = [] := by
        apply List.filter_eq_nil_iff.mpr
        intro r _
        simp [hp]
      rw [hnil]
      simp
  rw [List.map_congr_left hmap, sum_map_ite]

theorem groupPop_eq_childrenPop {pm : List (ℤ × ℤ)} {R : List DataRow}
    (h : ∀ c ∈ pm.map Prod.fst, c ∈ resIds R) (y p : ℤ) :
    groupPop (subsetRows R pm) y p = childrenPop R pm p y := by
  unfold groupPop subsetRows childrenPop
  rw [presentPairs_of_all_present h, filter_catMap, map_catMap, sum_catMap]
  have hmap : ∀ a ∈ pm,
      ((((R.filter (fun r => decide (r.location_id = a.1))).map (fun r => (r, a.2))).filter
          (fun rp => decide (rp.1.year_id = y ∧ rp.2 = p))).map
        (fun rp => rp.1.population)).sum
      = if decide (a.2 = p) then rowsPop R a.1 y else 0 := by
    intro a _
    rw [List.filter_map, List.map_map]
    by_cases hp : a.2 = p
    · rw [if_pos (by simpa using hp)]
      unfold rowsPop
      rw [List.filter_filter]
      have hpred : ∀ r : DataRow,
          (((fun rp : DataRow × ℤ => decide (rp.1.year_id = y ∧ rp.2 = p)) ∘
              (fun r => (r, a.2))) r && decide (r.location_id = a.1))
          = decide (r.location_id = a.1 ∧ r.year_id = y) := by
        intro r
        simp [hp, and_comm, Bool.and_comm]
      rw [List.filter_congr (fun r _ => hpred r)]
      rfl
    · rw [if_neg (by simpa using hp)]
      have hnil : (R.filter (fun r => decide (r.location_id = a.1))).filter
          ((fun rp : DataRow × ℤ => decide (rp.1.year_id = y ∧ rp.2 = p)) ∘
            (fun r => (r, a.2))) = [] := by
        apply List.filter_eq_nil_iff.mpr
        intro r _
        simp [hp]
      rw [hnil]
      simp
  rw [List.map_congr_left hmap, sum_map_ite]

theorem rollupFrom_extends (hier : List HierRow) :
    ∀ (L : ℕ) (R out : List DataRow), rollupFrom hier L R = .ok out →
      ∃ ext, out = R ++ ext := by
  intro L
  induction L with
  | zero =>
    intro R out h
    simp only [rollupFrom, Except.ok.injEq] at h
    exact ⟨[], by simp [← h]⟩
  | succ L ih =>
    intro R out h
    unfold rollupFrom at h
    unfold levelStep at h
    by_cases hm : missingParents (parentMapAt hier (L + 1)) R = []
    · rw [if_pos hm] at h
      obtain ⟨ext2, hext2⟩ := ih _ _ h
      exact ⟨levelRecords R (parentMapAt hier (L + 1)) ++ ext2, by
        rw [hext2, List.append_assoc]⟩
    · rw [if_neg hm] at h
      simp at h

/-- Evaluation of the roll-up on the spec's example: hierarchy
(10 → 1, level 2), (20 → 1, level 2), (1 → 0, level 1) and detailed records
(10, wv 8, pop 4), (20, wv 4, pop 4) at year 2000. -/
theorem agg_example_eval : aggregate_climate_to_hierarchy exData exHier =
    .ok [⟨0, 2000, 12, 8⟩, ⟨1, 2000, 12, 8⟩, ⟨10, 2000, 8, 4⟩, ⟨20, 2000, 4, 4⟩] := by
  norm_num [aggregate_climate_to_hierarchy, rollupFrom, levelStep, missingParents,
    absentPairs, resIds, presentPairs, subsetRows, levelKeys, levelRecords, groupWv,
    groupPop, parentMapAt, maxLevel, exData, exHier, List.insertionSort,
    List.orderedInsert, List.dedup, keyLe, dRowLe, catMap, List.filter, List.foldl]

/-- C1: at every level of the roll-up, when every child referenced by the
level's parent map is present in the working set, the record produced for a
parent location at a year carries exactly the sum of its immediate children's
weighted_climate values and the sum of their populations; and on the spec's
example hierarchy and detailed records, the output record for location 1 has
weighted_climate 12 and population 8. -/
theorem hierarchy_rollup_parent_sums :
    (∀ (R : List DataRow) (pm : List (ℤ × ℤ)),
      (∀ c ∈ pm.map Prod.fst, c ∈ resIds R) →
      ∀ y p : ℤ, (y, p) ∈ levelKeys R pm →
        ({ location_id := p, year_id := y,
           weighted_climate := childrenWv R pm p y,
           population := childrenPop R pm p y } : DataRow) ∈ levelRecords R pm) ∧
    okHas (aggregate_climate_to_hierarchy exData exHier) ⟨1, 2000, 12, 8⟩ = true := by
  constructor
  · intro R pm hall y p hk
    unfold levelRecords
    refine List.mem_map.mpr ⟨(y, p), hk, ?_⟩
    rw [groupWv_eq_childrenWv hall, groupPop_eq_childrenPop hall]
  · rw [agg_example_eval]
    simp [okHas]

/-- Witness for C1: the roll-up of the spec's example produces, at level 2,
the parent record for location 1 at year 2000 holding its children's sums. -/
theorem hierarchy_rollup_parent_sums_witness :
    ({ location_id := 1, year_id := 2000,
       weighted_climate := childrenWv exData (parentMapAt exHier 2) 1 2000,
       population := childrenPop exData (parentMapAt exHier 2) 1 2000 } : DataRow)
      ∈ levelRecords exData (parentMapAt exHier 2) :=
  hierarchy_rollup_parent_sums.1 exData (parentMapAt exHier 2)
    (by decide) 2000 1 (by decide)

/-- C3: if the level processed first (the maximum hierarchy level) references
a child absent from the detailed data whose parent is also absent, the whole
roll-up fails with a data-integrity error naming that parent. -/
theorem rollup_missing_parent_error :
    ∀ (data : List DataRow) (hier : List HierRow) (c q : ℤ),
      (c, q) ∈ parentMapAt hier (maxLevel hier) →
      1 ≤ maxLevel hier →
      c ∉ resIds data →
      q ∉ resIds data →
      ∃ m, aggregate_climate_to_hierarchy data hier = .error m ∧ q ∈ m := by
  intro data hier c q hmem hL hc hq
  have hqm : q ∈ missingParents (parentMapAt hier (maxLevel hier)) data := by
    unfold missingParents
    refine List.mem_filter.mpr ⟨?_, by simpa using hq⟩
    refine List.mem_dedup.mpr ?_
    refine List.mem_map.mpr ⟨(c, q), ?_, rfl⟩
    exact List.mem_filter.mpr ⟨hmem, by simpa using hc⟩
  refine ⟨missingParents (parentMapAt hier (maxLevel hier)) data, ?_, hqm⟩
  obtain ⟨L, hLs⟩ : ∃ L, maxLevel hier = L + 1 := ⟨maxLevel hier - 1, by omega⟩
  unfold aggregate_climate_to_hierarchy
  rw [hLs] at hqm ⊢
  unfold rollupFrom levelStep
  rw [if_neg (List.ne_nil_of_mem hqm)]

/-- Witness for C3: with hierarchy (7 → 99, level 2), (99 → 5, level 1) and
detailed data containing only location 8, the roll-up fails naming 99. -/
theorem rollup_missing_parent_error_witness :
    ∃ m, aggregate_climate_to_hierarchy exDataMissing exHierMissing = .error m ∧
      (99 : ℤ) ∈ m :=
  rollup_missing_parent_error exDataMissing exHierMissing 7 99
    (by decide) (by decide) (by decide) (by decide)

/-- C10: the roll-up never modifies or drops the input most-detailed records:
a successful output is a permutation of the input data plus appended
parent-level records, so every input row occurs in the output with its exact
weighted_climate and population. -/
theorem rollup_preserves_input_rows :
    ∀ (data : List DataRow) (hier : List HierRow) (out : List DataRow),
      aggregate_climate_to_hierarchy data hier = .ok out →
      (∃ ext, out.Perm (data ++ ext)) ∧ ∀ r ∈ data, r ∈ out := by
  intro data hier out h
  unfold aggregate_climate_to_hierarchy at h
  rcases hroll : rollupFrom hier (maxLevel hier) data with e | R
  · rw [hroll] at h
    simp at h
  · rw [hroll] at h
    simp only [Except.ok.injEq] at h
    have hout : out = List.insertionSort dRowLe R := h.symm
    obtain ⟨ext, hext⟩ := rollupFrom_extends hier _ _ _ hroll
    have hperm : out.Perm (data ++ ext) := by
      rw [hout, ← hext]
      exact List.perm_insertionSort dRowLe R
    exact ⟨⟨ext, hperm⟩, fun r hr =>
      hperm.mem_iff.mpr (List.mem_append_left ext hr)⟩

/-- Witness for C10: on the spec's example, the input detailed record for
location 10 appears unchanged in the roll-up output. -/
theorem rollup_preserves_input_rows_witness :
    (⟨10, 2000, 8, 4⟩ : DataRow) ∈
      [(⟨0, 2000, 12, 8⟩ : DataRow), ⟨1, 2000, 12, 8⟩, ⟨10, 2000, 8, 4⟩, ⟨20, 2000, 4, 4⟩] :=
  (rollup_preserves_input_rows exData exHier _ agg_example_eval).2
    ⟨10, 2000, 8, 4⟩ (by simp [exData])

/-- Counterexample for C2: the per-capita derivation of `hierarchy_main` is
the unguarded column division, so a record with population 0 and nonzero
weighted_climate yields +Inf, not 0, and the derived value is not finite. -/
theorem per_capita_zero_population_counterexample :
    derive_values [⟨5, 2000, 1, 0⟩] = [(5, 2000, FVal.inf)] ∧
    derive_values [⟨5, 2000, 1, 0⟩] ≠ [(5, 2000, FVal.fin 0)] ∧
    FVal.isFinite FVal.inf = false := by
  have h1 : derive_values [⟨5, 2000, 1, 0⟩] = [(5, 2000, FVal.inf)] := by
    norm_num [derive_values, fdiv]
  refine ⟨h1, ?_, rfl⟩
  rw [h1]
  simp

/-- C2 as amended: the derived per-capita value equals
weighted_climate / population when population is positive, but when
population is zero the unguarded division yields NaN (zero numerator) or a
signed infinity (nonzero numerator) — a non-finite value — because
`hierarchy_main` performs `weighted_climate / population` with no guard. -/
theorem per_capita_division_unguarded :
    ∀ (rows : List DataRow) (r : DataRow), r ∈ rows →
      (r.location_id, r.year_id, fdiv r.weighted_climate r.population) ∈ derive_values rows ∧
      (0 < r.population →
        fdiv r.weighted_climate r.population = .fin (r.weighted_climate / r.population)) ∧
      (r.population = 0 →
        FVal.isFinite (fdiv r.weighted_climate r.population) = false ∧
        fdiv r.weighted_climate r.population =
          (if r.weighted_climate = 0 then .nan
           else if 0 < r.weighted_climate then .inf else .ninf)) := by
  intro rows r hr
  refine ⟨List.mem_map.mpr ⟨r, hr, rfl⟩, ?_, ?_⟩
  · intro hpos
    unfold fdiv
    rw [if_neg (ne_of_gt hpos)]
  · intro hz
    unfold fdiv
    rw [if_pos hz]
    by_cases hw : r.weighted_climate = 0
    · simp [hw, FVal.isFinite]
    · by_cases hwp : 0 < r.weighted_climate
      · simp [hw, hwp, FVal.isFinite]
      · simp [hw, hwp, FVal.isFinite]

/-- Witness for C2's amended theorem: at a record with population 2 and
weighted_climate 3 the derived value is the finite ratio 3/2, and at a record
with population 0 it is non-finite. -/
theorem per_capita_division_unguarded_witness :
    fdiv (3 : ℚ) 2 = .fin (3 / 2) ∧
    FVal.isFinite (fdiv (1 : ℚ) 0) = false :=
  ⟨(per_capita_division_unguarded [⟨7, 2001, 3, 2⟩] ⟨7, 2001, 3, 2⟩
      (by simp)).2.1 (by norm_num),
   ((per_capita_division_unguarded [⟨5, 2000, 1, 0⟩] ⟨5, 2000, 1, 0⟩
      (by simp)).2.2 rfl).1⟩

/-- C4: every window produced by `build_bounds_map` lies entirely within
[0, height) x [0, width): the lower bounds are clamped at 0, the upper bounds
at the template's height/width, so indexing the template's arrays with the
window is always in bounds. -/
theorem bounds_map_window_in_bounds :
    ∀ (toPixel : AffineInv) (width height : ℕ) (shapes : List (ShapeBounds × ℤ))
      (loc rlo rhi clo chi : ℤ),
      (loc, ((rlo, rhi), (clo, chi))) ∈ build_bounds_map toPixel width height shapes →
      0 ≤ rlo ∧ rhi ≤ (height : ℤ) ∧ 0 ≤ clo ∧ chi ≤ (width : ℤ) ∧
      (∀ i : ℤ, rlo ≤ i → i < rhi → 0 ≤ i ∧ i < (height : ℤ)) ∧
      (∀ j : ℤ, clo ≤ j → j < chi → 0 ≤ j ∧ j < (width : ℤ)) := by
  intro toPixel width height shapes loc rlo rhi clo chi h
  unfold build_bounds_map at h
  obtain ⟨sv, _, heq⟩ := List.mem_map.mp h
  simp only [Prod.mk.injEq] at heq
  obtain ⟨-, ⟨hrlo, hrhi⟩, hclo, hchi⟩ := heq
  subst hrlo hrhi hclo hchi
  refine ⟨?_, ?_, ?_, ?_, ?_, ?_⟩ <;> omega

/-- Concrete shape list for the C4 witness: one shape with bounds
(0, 0, 5, 5) tagged location 7. -/
def exShapes : List (ShapeBounds × ℤ) :=
  [(⟨0, 0, 5, 5⟩, 7)]

/-- The identity inverse transform for the C4 witness. -/
def exToPixel : AffineInv :=
  ⟨1, 0, 0, 0, 1, 0⟩

theorem pyInt_zero : pyInt 0 = 0 := by
  unfold pyInt
  simp [Int.tdiv_one]

theorem pyInt_five : pyInt 5 = 5 := by
  unfold pyInt
  simp [Int.tdiv_one]

theorem bounds_map_ex_eval :
    build_bounds_map exToPixel 100 100 exShapes = [(7, ((0, 10), (0, 15)))] := by
  unfold build_bounds_map exShapes exToPixel
  norm_num [pyInt_zero, pyInt_five]

/-- Witness for C4: the window built for the witness shape on a 100 x 100
template is in bounds. -/
theorem bounds_map_window_in_bounds_witness :
    0 ≤ (0 : ℤ) ∧ (10 : ℤ) ≤ ((100 : ℕ) : ℤ) ∧ 0 ≤ (0 : ℤ) ∧ (15 : ℤ) ≤ ((100 : ℕ) : ℤ) ∧
    (∀ i : ℤ, 0 ≤ i → i < 10 → 0 ≤ i ∧ i < ((100 : ℕ) : ℤ)) ∧
    (∀ j : ℤ, 0 ≤ j → j < 15 → 0 ≤ j ∧ j < ((100 : ℕ) : ℤ)) :=
  bounds_map_window_in_bounds exToPixel 100 100 exShapes 7 0 10 0 15
    (by rw [bounds_map_ex_eval]; simp)

/-- C7: a raster whose CRS is not a key of the fixed MAX_BOUNDS table makes
`get_bbox` fail with a configuration error naming that CRS, before any box
is produced; it never falls back to an assumed CRS. -/
theorem get_bbox_unsupported_crs_error :
    ∀ (toCrs : String → String → GeoBox → GeoBox) (raster : RasterMeta)
      (crs : Option String),
      MAX_BOUNDS.lookup raster.crs = none →
      get_bbox toCrs raster crs = .error ("Unsupported CRS: " ++ raster.crs) := by
  intro toCrs raster crs h
  unfold get_bbox
  rw [h]

/-- Witness for C7: a raster tagged EPSG:4326 is rejected with an error
naming EPSG:4326 (the table only supports ESRI:54034). -/
theorem get_bbox_unsupported_crs_error_witness :
    get_bbox (fun _ _ b => b) ⟨"EPSG:4326", 0, 1, 0, 1⟩ none =
      .error ("Unsupported CRS: " ++ "EPSG:4326") :=
  get_bbox_unsupported_crs_error (fun _ _ b => b) ⟨"EPSG:4326", 0, 1, 0, 1⟩ none rfl

/-- C5: a location whose mask selects zero pixels, or whose selected pixels
are all missing, still gets a record in the per-block result set for its year
with weighted_climate and population summed as 0 (np.nansum of an empty or
all-NaN selection), not an error and not NaN. -/
theorem empty_mask_zero_record :
    ∀ (combos : List ScenarioData) (sd : ScenarioData) (y : ℤ)
      (cells : List LocCell) (c : LocCell),
      sd ∈ combos → sd.available = true → (y, cells) ∈ sd.years → c ∈ cells →
      (∀ x ∈ c.wvals, x = none) → (∀ x ∈ c.pvals, x = none) →
      ({ location_id := c.location_id, year_id := y, scenario := sd.scenario,
         measure := sd.measure, weighted_climate := 0, population := 0 } : ResultRow)
        ∈ pixel_results combos := by
  intro combos sd y cells c hsd hav hyc hc hw hp
  have hrec : (⟨c.location_id, y, sd.scenario, sd.measure, 0, 0⟩ : ResultRow)
      ∈ rawRecords combos := by
    unfold rawRecords
    refine mem_catMap.mpr ⟨sd, hsd, ?_⟩
    rw [hav]
    simp only [if_true]
    refine mem_catMap.mpr ⟨(y, cells), hyc, ?_⟩
    refine List.mem_map.mpr ⟨c, hc, ?_⟩
    rw [nansum_of_all_none hw, nansum_of_all_none hp]
  unfold pixel_results
  exact (List.perm_insertionSort rowLe (rawRecords combos)).mem_iff.mpr hrec

/-- Concrete input for the C5 witness: one available (measure, scenario)
combination whose single location mask selects no non-missing pixel. -/
def exCombos : List ScenarioData :=
  [⟨"people_flood_days", "ssp126", true, [(1970, [⟨10, [none, none], []⟩])]⟩]

/-- Witness for C5: the all-missing location 10 still yields the zero record
for year 1970. -/
theorem empty_mask_zero_record_witness :
    ({ location_id := 10, year_id := 1970, scenario := "ssp126",
       measure := "people_flood_days", weighted_climate := 0, population := 0 } : ResultRow)
      ∈ pixel_results exCombos :=
  empty_mask_zero_record exCombos ⟨"people_flood_days", "ssp126", true, [(1970, [⟨10, [none, none], []⟩])]⟩
    1970 [⟨10, [none, none], []⟩] ⟨10, [none, none], []⟩
    (by simp [exCombos]) rfl (by simp) (by simp)
    (by intro x hx; simpa using hx) (by intro x hx; simp at hx)

/-- C6: the per-block record set is sorted by (location_id, year_id) and the
sort is stable: filtering the output and the generation-order record list to
any fixed (location_id, year_id) key yields identical row lists, so rows with
equal keys keep their scenario/measure generation order. -/
theorem pixel_results_sorted_and_stable :
    ∀ (combos : List ScenarioData) (k : ℤ × ℤ),
      List.Sorted rowLe (pixel_results combos) ∧
      (pixel_results combos).filter (fun r => decide (rowKey r = k)) =
        (rawRecords combos).filter (fun r => decide (rowKey r = k)) := by
  intro combos k
  constructor
  · exact List.sorted_insertionSort rowLe (rawRecords combos)
  · exact filter_key_insertionSort k (rawRecords combos)

/-- C8: on a pixel stack holding at least one non-missing value, the shift
adjustment maps every non-missing daily value v to max(0, v - s), with s the
minimum or the configured percentile of the stack's non-missing values only,
and keeps missing values missing; a pixel whose stack is all-missing is left
unchanged.  The array-level pass applies exactly this per-pixel update at
every (t, y, x) sample. -/
theorem shift_adjustment_semantics :
    (∀ (st : ShiftType) (shift : ℚ) (stack : List (Option ℚ)),
      (stack.filterMap id = [] → adjustPixel st shift stack = stack) ∧
      (stack.filterMap id ≠ [] →
        ∀ (t : ℕ) (v : ℚ), stack.get? t = some (some v) →
          (adjustPixel st shift stack).get? t =
            some (some (max 0 (v - shiftOf st shift (stack.filterMap id))))) ∧
      (stack.filterMap id ≠ [] →
        ∀ t : ℕ, stack.get? t = some none →
          (adjustPixel st shift stack).get? t = some none)) ∧
    (∀ (st : ShiftType) (shift : ℚ) (arr : List (List (List (Option ℚ))))
      (t y x : ℕ),
      ((standardize_shifted st shift arr).get? t).bind
          (fun plane => (plane.get? y).bind (fun row => row.get? x)) =
        ((arr.get? t).bind (fun plane => (plane.get? y).bind (fun row => row.get? x))).map
          (adjustVal st shift (pixelStack arr y x))) := by
  constructor
  · intro st shift stack
    refine ⟨?_, ?_, ?_⟩
    · intro hempty
      unfold adjustPixel adjustVal
      simp [hempty]
    · intro hne t v hget
      unfold adjustPixel
      rw [List.get?_map, hget]
      simp only [Option.map_some']
      simp only [adjustVal]
      rw [if_neg hne]
      simp only [Option.map_some']
      have hcl : (if v - shiftOf st shift (stack.filterMap id) < 0 then (0 : ℚ)
          else v - shiftOf st shift (stack.filterMap id))
          = max 0 (v - shiftOf st shift (stack.filterMap id)) := by
        rcases le_or_lt 0 (v - shiftOf st shift (stack.filterMap id)) with h | h
        · rw [if_neg (not_lt.mpr h), max_eq_right h]
        · rw [if_pos h, max_eq_left (le_of_lt h)]
      rw [hcl]
    · intro hne t hget
      unfold adjustPixel
      rw [List.get?_map, hget]
      simp only [Option.map_some']
      simp only [adjustVal]
      rw [if_neg hne]
      rfl
  · intro st shift arr t y x
    unfold standardize_shifted
    rw [List.get?_map]
    rcases harr : arr.get? t with _ | plane
    · rfl
    · simp only [Option.map_some', Option.some_bind]
      rw [get_mapIdxF]
      rcases hplane : plane.get? y with _ | row
      · rfl
      · simp only [Option.map_some', Option.some_bind]
        rw [get_mapIdxF]

/-- Witness for C8: on the stack [3, NaN, 1] with the "min" shift, the sample
at day 0 becomes max(0, 3 - s) with s the minimum of the non-missing values,
and the all-missing stack [NaN] is unchanged. -/
theorem shift_adjustment_semantics_witness :
    (adjustPixel ShiftType.min 0 [some 3, none, some 1]).get? 0 =
      some (some (max 0 (3 - shiftOf ShiftType.min 0
        ([some (3 : ℚ), none, some 1].filterMap id)))) ∧
    adjustPixel ShiftType.min 0 [none] = [none] :=
  ⟨(shift_adjustment_semantics.1 ShiftType.min 0 [some 3, none, some 1]).2.1
      (by simp) 0 3 rfl,
   (shift_adjustment_semantics.1 ShiftType.min 0 [none]).1 (by simp)⟩

/-- C9 (code bug): the write/chmod trace of the engine at the failing input
(hierarchy gbd_2021, scenario ssp245).  The per-block parquet and the subset
results parquets are chmodded to 0o775, but both population.parquet writes
are not: the `pop_path.chmod(0o775)` line of hierarchy_main is commented out
in the source, contradicting the spec's output-permissions post-condition. -/
theorem population_parquet_chmod_missing :
    hierarchy_writes "gbd_2021" "ssp245" "CanESM5" "r1i1p1f1" "people_flood_days" =
      [⟨"gbd_2021/people_flood_days_ssp245_CanESM5_r1i1p1f1.parquet", true⟩,
       ⟨"gbd_2021/population.parquet", false⟩,
       ⟨"fhs_2021/people_flood_days_ssp245_CanESM5_r1i1p1f1.parquet", true⟩,
       ⟨"fhs_2021/population.parquet", false⟩] ∧
    pixel_writes "gbd_2021" "CanESM5" "B-0017X-0042Y" "people_flood_days" =
      [⟨"gbd_2021/CanESM5/B-0017X-0042Y/people_flood_days/000.parquet", true⟩] := by
  constructor
  · rfl
  · rfl
